import Mathlib

/-! Verification development for the xpost cross-posting tool.
    The definitions shallowly embed the Go sources: `cmd/root.go`
    (target normalization, poster construction, dispatch), the
    twitter provider (gotwi-based media upload pipeline), and the
    mastodon and bluesky providers. -/

namespace Xpost

/-- Shallow model of the Go error values produced by the sources:
`xpost.MissingEnvError`, `xpost.ValidationError`, `errors.New` /
`fmt.Errorf` messages, `fmt.Errorf "%s: %w"` wrapping, `ctx.Err()`,
and `errors.Join`. -/
inductive XError where
  | missingEnv (provider : String) (vars : List String)
  | validation (provider : String) (reason : String)
  | errorf (msg : String)
  | wrap (label : String) (inner : XError)
  | ctxCanceled
  | joined (errs : List XError)

mutual

/-- The `Error()` string of a modelled Go error, following the
`Error` methods in the sources (`MissingEnvError.Error`,
`ValidationError.Error`) and the formatting of `fmt.Errorf` and
`errors.Join`. -/
def XError.message : XError → String
  | .missingEnv p vars =>
    if vars.isEmpty then p ++ " credentials not configured"
    else p ++ " credentials not configured (missing " ++ String.intercalate ", " vars ++ ")"
  | .validation p r => p ++ " validation failed: " ++ r
  | .errorf m => m
  | .wrap l e => l ++ ": " ++ XError.message e
  | .ctxCanceled => "context canceled"
  | .joined es => String.intercalate "\n" (XError.messageList es)

/-- Messages of a list of modelled errors, in order. -/
def XError.messageList : List XError → List String
  | [] => []
  | e :: rest => XError.message e :: XError.messageList rest

end

/-- Whether a modelled error is an `xpost.ValidationError`. -/
def XError.isValidation : XError → Bool
  | .validation _ _ => true
  | _ => false

/-- `xpost.Request` from `internal/xpost/types.go`. -/
structure Request where
  message : String
  imagePath : String
  imageAlt : String
  link : String
deriving DecidableEq, Repr

/-- The `xpost.Poster` capability: a provider name plus the outcome of
its `Post` call on a request (the remote interaction is abstracted as
the returned outcome). -/
structure Poster where
  name : String
  post : Request → Except XError Unit

/-- The keys of `supportedTargets` in `cmd/root.go`. -/
def supportedTargetNames : List String := ["bluesky", "mastodon", "twitter"]

/-- Byte-order lexicographic comparison on character lists, modelling
the Go string ordering used by `sort.Strings` (the sources only sort
ASCII provider names, where byte order and code-point order agree). -/
def lexLe : List Char → List Char → Bool
  | [], _ => true
  | _ :: _, [] => false
  | a :: as, b :: bs => if a = b then lexLe as bs else decide (a < b)

/-- Go string `<=` as used by `sort.Strings`. -/
def strLe (a b : String) : Bool := lexLe a.data b.data

/-- `sortedTargets` from `cmd/root.go`: copy and `sort.Strings`
(ascending lexicographic sort). -/
def sortedTargets (targets : List String) : List String :=
  List.insertionSort (fun a b => strLe a b = true) targets

/-- Helper of `goTrim`: drop leading whitespace characters. -/
def trimLeftChars : List Char → List Char
  | [] => []
  | c :: rest => if c.isWhitespace then trimLeftChars rest else c :: rest

/-- Go `strings.TrimSpace`: drop leading and trailing whitespace. -/
def goTrim (s : String) : String :=
  ⟨trimLeftChars (trimLeftChars s.data.reverse).reverse⟩

/-- Go `strings.ToLower` (ASCII case, which is all the sources use). -/
def goToLower (s : String) : String :=
  ⟨s.data.map Char.toLower⟩

/-- One loop step of `normalizeTargets`:
`strings.TrimSpace(strings.ToLower(raw))`. -/
def normalizeEntry (raw : String) : String := goTrim (goToLower raw)

/-- The default target list from the `--target` flag default and the
`all` expansion in `cmd/root.go`. -/
def defaultTargets : List String := ["twitter", "mastodon", "bluesky"]

/-- The loop of `normalizeTargets` in `cmd/root.go`, with the `seen`
set and `result` slice made explicit. -/
def normalizeLoop : List String → List String → List String → Except XError (List String)
  | [], _, result =>
    if result.isEmpty then .error (.errorf "no targets selected")
    else .ok (sortedTargets result)
  | raw :: rest, seen, result =>
    let r := normalizeEntry raw
    if r = "" then normalizeLoop rest seen result
    else if r = "all" then .ok (sortedTargets defaultTargets)
    else if r ∈ supportedTargetNames then
      if r ∈ seen then normalizeLoop rest seen result
      else normalizeLoop rest (r :: seen) (result ++ [r])
    else .error (.errorf ("unsupported target \"" ++ r ++ "\""))

/-- `normalizeTargets` from `cmd/root.go`. -/
def normalizeTargets (values : List String) : Except XError (List String) :=
  if values.isEmpty then .ok (sortedTargets defaultTargets)
  else normalizeLoop values [] []

/-- Model of Go `%q` for the strings occurring here (none of the
claims exercise characters that `%q` would escape). -/
def goQuote (s : String) : String := "\"" ++ s ++ "\""

/-- `providerStyle` from `cmd/root.go`. -/
structure ProviderStyle where
  icon : String
  label : String
  color : String

/-- ANSI reset constant from `cmd/root.go`. -/
def colorReset : String := "\x1b[0m"

/-- The `providerStyles` map from `cmd/root.go`. -/
def providerStyles : String → Option ProviderStyle
  | "twitter" => some ⟨"", "Twitter/X", "\x1b[38;5;39m"⟩
  | "mastodon" => some ⟨"", "Mastodon", "\x1b[38;5;63m"⟩
  | "bluesky" => some ⟨"", "Bluesky", "\x1b[38;5;45m"⟩
  | _ => none

/-- `colorize` from `cmd/root.go`; `colorOK` stands for
`supportsColor(out)`. -/
def colorize (colorOK : Bool) (text color : String) : String :=
  if ¬ colorOK ∨ color = "" then text else color ++ text ++ colorReset

/-- `styledProvider` from `cmd/root.go`. -/
def styledProvider (name : String) (colorOK : Bool) : String :=
  match providerStyles name with
  | none => name
  | some s => colorize colorOK (s.icon ++ " " ++ s.label) s.color

/-- Result of one `dispatch` call: the lines written to `out`, the
names of the posters whose `Post` was invoked (in call order), and
the returned error. -/
structure DispatchResult where
  output : List String
  calls : List String
  err : Option XError

/-- The dry-run line emitted per poster in `dispatch`. -/
def dryRunLine (p : Poster) (req : Request) (colorOK : Bool) : String :=
  "[dry-run] would post to " ++ styledProvider p.name colorOK ++ ": " ++ goQuote req.message

/-- The dry-run image line emitted by `dispatch` when an image is set. -/
def dryRunImageLine (req : Request) : String :=
  "[dry-run] image: " ++ req.imagePath ++ " (alt: " ++ goQuote req.imageAlt ++ ")"

/-- The live-mode loop of `dispatch`: output lines, invoked poster
names, and collected (provider-wrapped) errors, in order. -/
def dispatchLoop (posters : List Poster) (req : Request) (colorOK : Bool) :
    List String × List String × List XError :=
  match posters with
  | [] => ([], [], [])
  | p :: rest =>
    let acc := dispatchLoop rest req colorOK
    match p.post req with
    | .error e => (acc.1, p.name :: acc.2.1, XError.wrap p.name e :: acc.2.2)
    | .ok _ => (("Posted to " ++ styledProvider p.name colorOK) :: acc.1, p.name :: acc.2.1, acc.2.2)

/-- `dispatch` from `cmd/root.go`. -/
def dispatch (posters : List Poster) (req : Request) (colorOK : Bool) (simulate : Bool) :
    DispatchResult :=
  if simulate then
    ⟨(posters.map fun p => dryRunLine p req colorOK)
      ++ (if req.imagePath ≠ "" then [dryRunImageLine req] else []),
     [], none⟩
  else
    let acc := dispatchLoop posters req colorOK
    if acc.2.2.isEmpty then ⟨acc.1, acc.2.1, none⟩
    else ⟨acc.1 ++ acc.2.2.map (fun e => "error: " ++ e.message), acc.2.1, some (.joined acc.2.2)⟩

/-- The keys of the `constructors` map in `buildPosters`. -/
def constructorTargets : List String := ["bluesky", "mastodon", "twitter"]

/-- Accumulated state of the `buildPosters` loop: targets whose
constructor was invoked, successfully constructed posters, and
collected construction errors, each in target order. -/
structure BuildAcc where
  attempted : List String
  posters : List Poster
  errs : List XError

/-- The loop of `buildPosters` in `cmd/root.go`; `construct t` is the
outcome of calling the constructor registered for target `t`. -/
def buildLoop (targets : List String) (construct : String → Except XError Poster) : BuildAcc :=
  match targets with
  | [] => ⟨[], [], []⟩
  | t :: rest =>
    let acc := buildLoop rest construct
    if t ∈ constructorTargets then
      match construct t with
      | .error e => ⟨t :: acc.attempted, acc.posters, XError.wrap t e :: acc.errs⟩
      | .ok p => ⟨t :: acc.attempted, p :: acc.posters, acc.errs⟩
    else ⟨acc.attempted, acc.posters, XError.errorf ("target " ++ goQuote t ++ " is not implemented") :: acc.errs⟩

/-- `buildPosters` from `cmd/root.go`. -/
def buildPosters (targets : List String) (construct : String → Except XError Poster) :
    Except XError (List Poster) :=
  if ¬ (buildLoop targets construct).errs.isEmpty then
    .error (.joined (buildLoop targets construct).errs)
  else if (buildLoop targets construct).posters.isEmpty then
    .error (.errorf "no targets available")
  else .ok (buildLoop targets construct).posters

/-- The tail of `runRoot` in `cmd/root.go`: construct the posters and,
only when construction returned no error, dispatch. A construction
error is returned with no dispatch (empty output, no poster invoked). -/
def runPost (targets : List String) (construct : String → Except XError Poster)
    (req : Request) (colorOK : Bool) (dryRun : Bool) : DispatchResult :=
  match buildPosters targets construct with
  | .error e => ⟨[], [], some e⟩
  | .ok posters => dispatch posters req colorOK dryRun

/-- Outcome of a local file open/read (`os.ReadFile` / `os.Open`):
missing file, other I/O error, or success. On success we record the
`http.DetectContentType` of the leading bytes, the only use the
pipelines make of the data besides transmitting it. -/
inductive ReadResult where
  | notExist
  | ioError (msg : String)
  | ok (detected : String)
deriving DecidableEq, Repr

/-- Remote calls issued by the provider pipelines, with the submitted
post text recorded on the create calls. -/
inductive NetCall where
  | initUpload
  | appendUpload
  | finalizeUpload
  | mediaMetadata
  | createTweet (text : String)
  | mastodonUploadMedia
  | mastodonPostStatus (text : String)
  | blueskyUploadBlob
  | blueskyCreateRecord (text : String)
deriving DecidableEq, Repr

/-- Subset of gotwi `ProcessingInfo` used by `uploadMedia`: the
reported `State` and `CheckAfterSecs`. -/
structure ProcessingInfo where
  state : String
  checkAfterSecs : Nat
deriving DecidableEq, Repr

/-- gotwi library constant `resources.ProcessingInfoStateSucceeded`. -/
def processingStateSucceeded : String := "succeeded"

/-- gotwi library constant `resources.ProcessingInfoStateInProgress`. -/
def processingStateInProgress : String := "in_progress"

/-- gotwi library constant `resources.ProcessingInfoStatePending`. -/
def processingStatePending : String := "pending"

/-- gotwi library constant `uploadtypes.MediaTypeJPEG`. -/
def mediaTypeJPEG : String := "image/jpeg"

/-- gotwi library constant `uploadtypes.MediaTypePNG`. -/
def mediaTypePNG : String := "image/png"

/-- gotwi library constant `uploadtypes.MediaTypeGIF`. -/
def mediaTypeGIF : String := "image/gif"

/-- gotwi library constant `uploadtypes.MediaTypeWebP`. -/
def mediaTypeWebP : String := "image/webp"

/-- gotwi library constant `uploadtypes.MediaCategoryTweetImage`. -/
def mediaCategoryTweetImage : String := "tweet_image"

/-- gotwi library constant `uploadtypes.MediaCategoryTweetGIF`. -/
def mediaCategoryTweetGIF : String := "tweet_gif"

/-- Helper of `filepathExt`: walk the reversed character list looking
for a dot before any path separator, accumulating the suffix. -/
def filepathExtAux : List Char → List Char → String
  | [], _ => ""
  | c :: rest, acc =>
    if c = '/' then ""
    else if c = '.' then String.mk ('.' :: acc)
    else filepathExtAux rest (c :: acc)

/-- Go `filepath.Ext`: the suffix beginning at the final dot in the
final slash-separated element of the path, empty if there is none. -/
def filepathExt (path : String) : String :=
  filepathExtAux path.toList.reverse []

/-- Whether `sub` occurs inside `s`, scanning positions left to right. -/
def strContainsAux (sub : List Char) : List Char → Bool
  | [] => sub.isEmpty
  | c :: rest => List.isPrefixOf sub (c :: rest) || strContainsAux sub rest

/-- Go `strings.Contains s sub`. -/
def strContains (s sub : String) : Bool :=
  strContainsAux sub.toList s.toList

/-- `resolveMediaType` of the twitter (gotwi) provider: extension
lookup first, then fallback content sniffing over the
`http.DetectContentType` string of the data. -/
def resolveMediaType (path : String) (detected : String) :
    Except XError (String × String) :=
  let ext := goToLower (filepathExt path)
  if ext = ".jpg" ∨ ext = ".jpeg" then .ok (mediaTypeJPEG, mediaCategoryTweetImage)
  else if ext = ".png" then .ok (mediaTypePNG, mediaCategoryTweetImage)
  else if ext = ".gif" then .ok (mediaTypeGIF, mediaCategoryTweetGIF)
  else if ext = ".webp" then .ok (mediaTypeWebP, mediaCategoryTweetImage)
  else if strContains detected "jpeg" then .ok (mediaTypeJPEG, mediaCategoryTweetImage)
  else if strContains detected "png" then .ok (mediaTypePNG, mediaCategoryTweetImage)
  else if strContains detected "gif" then .ok (mediaTypeGIF, mediaCategoryTweetGIF)
  else if strContains detected "webp" then .ok (mediaTypeWebP, mediaCategoryTweetImage)
  else .error (.validation "twitter" ("unsupported image type for " ++ goQuote path))

/-- Environment of one twitter `Post` call: the local read outcome and
the outcomes of the remote calls the pipeline may issue, plus whether
the caller context fires during the processing wait. -/
structure TwitterEnv where
  read : ReadResult
  initRes : Except XError Unit
  appendRes : Except XError Unit
  finalizeRes : Except XError ProcessingInfo
  cancelDuringWait : Bool
  metadataRes : Except XError Unit
  createRes : Except XError Unit

/-- Trace of one upload: remote calls issued and completed timed waits
(durations in seconds). -/
structure UploadTrace where
  calls : List NetCall
  waits : List Nat
deriving DecidableEq, Repr

/-- The tail of twitter `uploadMedia` after the processing-state
switch: the optional alt-text metadata call. -/
def twitterAfterProcessing (calls : List NetCall) (waits : List Nat)
    (altText : String) (env : TwitterEnv) : UploadTrace × Except XError Unit :=
  if goTrim altText ≠ "" then
    match env.metadataRes with
    | .error e => (⟨calls ++ [.mediaMetadata], waits⟩, .error (.wrap "set alt text" e))
    | .ok _ => (⟨calls ++ [.mediaMetadata], waits⟩, .ok ())
  else (⟨calls, waits⟩, .ok ())

/-- `uploadMedia` of the twitter (gotwi) provider: read and classify
the file, then initialize, append, finalize, handle the reported
processing state (single timed wait on pending/in-progress, honoring
cancellation), then the optional alt-text call. -/
def twitterUploadMedia (imagePath altText : String) (env : TwitterEnv) :
    UploadTrace × Except XError Unit :=
  match env.read with
  | .notExist =>
    (⟨[], []⟩, .error (.validation "twitter" ("image " ++ goQuote imagePath ++ " not found")))
  | .ioError m => (⟨[], []⟩, .error (.wrap "read image" (.errorf m)))
  | .ok detected =>
    match resolveMediaType imagePath detected with
    | .error e => (⟨[], []⟩, .error e)
    | .ok _ =>
      match env.initRes with
      | .error e => (⟨[.initUpload], []⟩, .error (.wrap "initialize upload" e))
      | .ok _ =>
        match env.appendRes with
        | .error e => (⟨[.initUpload, .appendUpload], []⟩, .error (.wrap "append upload" e))
        | .ok _ =>
          match env.finalizeRes with
          | .error e =>
            (⟨[.initUpload, .appendUpload, .finalizeUpload], []⟩,
             .error (.wrap "finalize upload" e))
          | .ok info =>
            let base : List NetCall := [.initUpload, .appendUpload, .finalizeUpload]
            if info.state = "" ∨ info.state = processingStateSucceeded then
              twitterAfterProcessing base [] altText env
            else if info.state = processingStateInProgress ∨ info.state = processingStatePending then
              if env.cancelDuringWait then (⟨base, []⟩, .error .ctxCanceled)
              else twitterAfterProcessing base [info.checkAfterSecs] altText env
            else
              (⟨base, []⟩, .error (.errorf ("media processing failed: state=" ++ info.state)))

/-- `Post` of the twitter (gotwi) provider: optional media pipeline,
then the create-tweet call with exactly the request message as text. -/
def twitterPost (req : Request) (env : TwitterEnv) : UploadTrace × Except XError Unit :=
  if goTrim req.imagePath ≠ "" then
    match twitterUploadMedia req.imagePath req.imageAlt env with
    | (tr, .error e) => (tr, .error e)
    | (tr, .ok _) =>
      match env.createRes with
      | .error e => (⟨tr.calls ++ [.createTweet req.message], tr.waits⟩, .error (.wrap "post tweet" e))
      | .ok _ => (⟨tr.calls ++ [.createTweet req.message], tr.waits⟩, .ok ())
  else
    match env.createRes with
    | .error e => (⟨[.createTweet req.message], []⟩, .error (.wrap "post tweet" e))
    | .ok _ => (⟨[.createTweet req.message], []⟩, .ok ())

/-- Environment of one mastodon `Post` call. -/
structure MastodonEnv where
  openRes : ReadResult
  uploadRes : Except XError Unit
  postStatusRes : Except XError Unit

/-- Status text composed by mastodon `Post`: the message, with the
link appended on its own blank-separated line when present. -/
def mastodonStatusText (req : Request) : String :=
  if req.link ≠ "" then req.message ++ "\n\n" ++ req.link else req.message

/-- `uploadMedia` of the mastodon provider. -/
def mastodonUpload (path : String) (env : MastodonEnv) : List NetCall × Except XError Unit :=
  match env.openRes with
  | .notExist => ([], .error (.validation "mastodon" ("image " ++ goQuote path ++ " not found")))
  | .ioError m => ([], .error (.wrap "open image" (.errorf m)))
  | .ok _ =>
    match env.uploadRes with
    | .error e => ([.mastodonUploadMedia], .error (.wrap "upload media" e))
    | .ok _ => ([.mastodonUploadMedia], .ok ())

/-- `Post` of the mastodon provider. -/
def mastodonPost (req : Request) (env : MastodonEnv) : List NetCall × Except XError Unit :=
  if req.imagePath ≠ "" then
    match mastodonUpload req.imagePath env with
    | (calls, .error e) => (calls, .error e)
    | (calls, .ok _) =>
      match env.postStatusRes with
      | .error e =>
        (calls ++ [.mastodonPostStatus (mastodonStatusText req)], .error (.wrap "post status" e))
      | .ok _ => (calls ++ [.mastodonPostStatus (mastodonStatusText req)], .ok ())
  else
    match env.postStatusRes with
    | .error e => ([.mastodonPostStatus (mastodonStatusText req)], .error (.wrap "post status" e))
    | .ok _ => ([.mastodonPostStatus (mastodonStatusText req)], .ok ())

/-- Environment of one bluesky `Post` call; `uploadBlobRes` carries
whether the response blob was present. -/
structure BlueskyEnv where
  openRes : ReadResult
  copyRes : Except XError Unit
  uploadBlobRes : Except XError Bool
  createRecordRes : Except XError Unit

/-- `uploadImage` of the bluesky provider. -/
def blueskyUploadImage (path : String) (env : BlueskyEnv) : List NetCall × Except XError Unit :=
  match env.openRes with
  | .notExist => ([], .error (.validation "bluesky" ("image " ++ goQuote path ++ " not found")))
  | .ioError m => ([], .error (.wrap "open image" (.errorf m)))
  | .ok _ =>
    match env.copyRes with
    | .error e => ([], .error (.wrap "read image" e))
    | .ok _ =>
      match env.uploadBlobRes with
      | .error e => ([.blueskyUploadBlob], .error (.wrap "upload blob" e))
      | .ok hasBlob =>
        if hasBlob then ([.blueskyUploadBlob], .ok ())
        else ([.blueskyUploadBlob], .error (.errorf "upload blob: empty response"))

/-- `Post` of the bluesky provider: optional image upload, then the
create-record call whose post text is exactly the request message. -/
def blueskyPost (req : Request) (env : BlueskyEnv) : List NetCall × Except XError Unit :=
  if req.imagePath ≠ "" then
    match blueskyUploadImage req.imagePath env with
    | (calls, .error e) => (calls, .error e)
    | (calls, .ok _) =>
      match env.createRecordRes with
      | .error e => (calls ++ [.blueskyCreateRecord req.message], .error (.wrap "create record" e))
      | .ok _ => (calls ++ [.blueskyCreateRecord req.message], .ok ())
  else
    match env.createRecordRes with
    | .error e => ([.blueskyCreateRecord req.message], .error (.wrap "create record" e))
    | .ok _ => ([.blueskyCreateRecord req.message], .ok ())

/-- A poster whose `Post` always succeeds, for concrete instances. -/
def okPoster (n : String) : Poster := ⟨n, fun _ => .ok ()⟩

/-- A poster whose `Post` always fails with `e`, for concrete instances. -/
def failPoster (n : String) (e : XError) : Poster := ⟨n, fun _ => .error e⟩

/-- A request with only a message set, for concrete instances. -/
def msgRequest (m : String) : Request := ⟨m, "", "", ""⟩

/-- A request with a message and a link but no image, for concrete
instances. -/
def linkRequest : Request := ⟨"m", "", "", "https://example.com"⟩

/-- A twitter environment whose remote calls all succeed, for concrete
instances. -/
def okTwitterEnv : TwitterEnv := ⟨.ok "image/png", .ok (), .ok (), .ok ⟨"", 0⟩, false, .ok (), .ok ()⟩

/-- A bluesky environment whose remote calls all succeed, for concrete
instances. -/
def okBlueskyEnv : BlueskyEnv := ⟨.ok "image/png", .ok (), .ok true, .ok ()⟩

/-- A mastodon environment whose remote calls all succeed, for
concrete instances. -/
def okMastodonEnv : MastodonEnv := ⟨.ok "image/png", .ok (), .ok ()⟩

/-- Environment variable names required by the twitter provider, in
the order `loadConfigFromEnv` checks them. -/
def twitterEnvVarNames : List String :=
  ["XPOST_TWITTER_CONSUMER_KEY", "XPOST_TWITTER_CONSUMER_SECRET",
   "XPOST_TWITTER_ACCESS_TOKEN", "XPOST_TWITTER_ACCESS_TOKEN_SECRET"]

/-- `loadConfigFromEnv` of the twitter (gotwi) provider over an
environment map: trim each variable and collect every missing one
into a `MissingEnvError`. -/
def twitterLoadConfigFromEnv (env : String → String) : Except XError (List String) :=
  let missing := twitterEnvVarNames.filter fun v => goTrim (env v) = ""
  if missing.isEmpty then .ok (twitterEnvVarNames.map fun v => goTrim (env v))
  else .error (.missingEnv "twitter" missing)

/-- `loadConfigFromEnv` of the mastodon provider: server and access
token are required, client id and secret are optional. -/
def mastodonLoadConfigFromEnv (env : String → String) : Except XError (List String) :=
  let server := goTrim (env "XPOST_MASTODON_SERVER")
  let token := goTrim (env "XPOST_MASTODON_ACCESS_TOKEN")
  let missing := (if server = "" then ["XPOST_MASTODON_SERVER"] else [])
    ++ (if token = "" then ["XPOST_MASTODON_ACCESS_TOKEN"] else [])
  if missing.isEmpty then
    .ok [server, token, goTrim (env "XPOST_MASTODON_CLIENT_ID"),
         goTrim (env "XPOST_MASTODON_CLIENT_SECRET")]
  else .error (.missingEnv "mastodon" missing)

/-- `loadConfig` of the bluesky provider: handle and app password are
required; the PDS URL falls back to the caller-supplied base and then
to the public default. -/
def blueskyLoadConfig (basePDSURL : String) (env : String → String) :
    Except XError (List String) :=
  let handle := goTrim (env "XPOST_BLUESKY_HANDLE")
  let pw := goTrim (env "XPOST_BLUESKY_APP_PASSWORD")
  let pds0 := goTrim (env "XPOST_BLUESKY_PDS_URL")
  let pds1 := if pds0 = "" then goTrim basePDSURL else pds0
  let pds := if pds1 = "" then "https://bsky.social" else pds1
  let missing := (if handle = "" then ["XPOST_BLUESKY_HANDLE"] else [])
    ++ (if pw = "" then ["XPOST_BLUESKY_APP_PASSWORD"] else [])
    ++ (if pds = "" then ["XPOST_BLUESKY_PDS_URL"] else [])
  if missing.isEmpty then .ok [handle, pw, pds]
  else .error (.missingEnv "bluesky" missing)

/-- The sorted default target list, as produced by `normalizeTargets`
for the default flag value. -/
def c1Targets : List String := ["bluesky", "mastodon", "twitter"]

/-- Environment with all twitter variables empty and every other
variable set. -/
def c1Env : String → String := fun v => if v ∈ twitterEnvVarNames then "" else "x"

/-- Constructor outcomes over `c1Env`: twitter fails its credential
check, mastodon and bluesky construct usable posters whose posts
succeed. -/
def c1Construct : String → Except XError Poster := fun t =>
  if t = "twitter" then
    match twitterLoadConfigFromEnv c1Env with
    | .error e => .error e
    | .ok _ => .ok (okPoster "twitter")
  else if t = "mastodon" then
    match mastodonLoadConfigFromEnv c1Env with
    | .error e => .error e
    | .ok _ => .ok (okPoster "mastodon")
  else
    match blueskyLoadConfig "https://bsky.social" c1Env with
    | .error e => .error e
    | .ok _ => .ok (okPoster t)

/-- Specification helper: the normalized entries `normalizeLoop`
appends to its result, dedup-ed against `seen`, in first-occurrence
order. -/
def dedupNew : List String → List String → List String
  | [], _ => []
  | e :: rest, seen =>
    let r := normalizeEntry e
    if r ∈ seen then dedupNew rest seen else r :: dedupNew rest (r :: seen)

/-- `lexLe` is total. -/
theorem lexLe_total : ∀ as bs : List Char, lexLe as bs = true ∨ lexLe bs as = true
  | [], _ => Or.inl rfl
  | _ :: _, [] => Or.inr rfl
  | a :: as, b :: bs => by
    by_cases h : a = b
    · subst h
      simp only [lexLe, if_pos rfl]
      exact lexLe_total as bs
    · rcases lt_or_gt_of_ne h with hlt | hgt
      · left
        simp [lexLe, h, hlt]
      · right
        have hba : b ≠ a := fun hba => h hba.symm
        simp [lexLe, hba, hgt]

/-- `lexLe` is transitive. -/
theorem lexLe_trans : ∀ as bs cs, lexLe as bs = true → lexLe bs cs = true → lexLe as cs = true
  | [], _, _, _, _ => rfl
  | _ :: _, [], _, h1, _ => by simp [lexLe] at h1
  | _ :: _, _ :: _, [], _, h2 => by simp [lexLe] at h2
  | a :: as, b :: bs, c :: cs, h1, h2 => by
    by_cases hab : a = b
    · subst hab
      by_cases hac : a = c
      · subst hac
        simp only [lexLe, if_pos rfl] at h1 h2 ⊢
        exact lexLe_trans _ _ _ h1 h2
      · simp only [lexLe, if_pos rfl] at h1
        simp only [lexLe, if_neg hac] at h2 ⊢
        exact h2
    · by_cases hbc : b = c
      · subst hbc
        simp only [lexLe, if_neg hab] at h1 ⊢
        exact h1
      · simp only [lexLe, if_neg hab] at h1
        simp only [lexLe, if_neg hbc] at h2
        have hac' : a < c := lt_trans (of_decide_eq_true h1) (of_decide_eq_true h2)
        simp [lexLe, ne_of_lt hac', hac']

/-- `lexLe` is antisymmetric. -/
theorem lexLe_antisymm : ∀ as bs, lexLe as bs = true → lexLe bs as = true → as = bs
  | [], [], _, _ => rfl
  | [], _ :: _, _, h2 => by simp [lexLe] at h2
  | _ :: _, [], h1, _ => by simp [lexLe] at h1
  | a :: as, b :: bs, h1, h2 => by
    by_cases hab : a = b
    · subst hab
      simp only [lexLe, if_pos rfl] at h1 h2
      rw [lexLe_antisymm as bs h1 h2]
    · have hba : b ≠ a := fun h => hab h.symm
      simp only [lexLe, if_neg hab] at h1
      simp only [lexLe, if_neg hba] at h2
      exact absurd (lt_trans (of_decide_eq_true h1) (of_decide_eq_true h2)) (lt_irrefl a)

/-- `sortedTargets` output is sorted ascending under the Go string
order. -/
theorem sortedTargets_sorted (l : List String) :
    (sortedTargets l).Sorted (fun a b => strLe a b = true) := by
  haveI : IsTotal String (fun a b => strLe a b = true) :=
    ⟨fun a b => lexLe_total a.data b.data⟩
  haveI : IsTrans String (fun a b => strLe a b = true) :=
    ⟨fun a b c => lexLe_trans a.data b.data c.data⟩
  exact List.sorted_insertionSort _ l

/-- `sortedTargets` permutes its input. -/
theorem sortedTargets_perm (l : List String) : (sortedTargets l).Perm l :=
  List.perm_insertionSort _ l

/-- `sortedTargets` is invariant under permutation of its input. -/
theorem sortedTargets_eq_of_perm (l1 l2 : List String) (h : l1.Perm l2) :
    sortedTargets l1 = sortedTargets l2 := by
  haveI : IsAntisymm String (fun a b => strLe a b = true) :=
    ⟨fun a b h1 h2 => by
      cases a with
      | mk da =>
        cases b with
        | mk db => exact congrArg String.mk (lexLe_antisymm da db h1 h2)⟩
  exact List.eq_of_perm_of_sorted
    (((sortedTargets_perm l1).trans h).trans (sortedTargets_perm l2).symm)
    (sortedTargets_sorted l1) (sortedTargets_sorted l2)

/-- C9: in simulate mode `dispatch` invokes no poster's `post`, emits
one dry-run line per poster in poster order plus exactly one image
line when `imagePath` is non-empty, returns no error, and its output
depends only on the poster names (so no network interaction of any
poster can influence it). -/
theorem dispatch_dry_run (posters : List Poster) (req : Request) (colorOK : Bool) :
    (dispatch posters req colorOK true).calls = [] ∧
    (dispatch posters req colorOK true).err = none ∧
    (dispatch posters req colorOK true).output =
      (posters.map fun p => dryRunLine p req colorOK)
        ++ (if req.imagePath ≠ "" then [dryRunImageLine req] else []) ∧
    (∀ posters2 : List Poster, posters.map Poster.name = posters2.map Poster.name →
      dispatch posters req colorOK true = dispatch posters2 req colorOK true) := by
  refine ⟨rfl, rfl, rfl, ?_⟩
  intro posters2 hnames
  have hline : ∀ ps : List Poster, (ps.map fun p => dryRunLine p req colorOK) =
      (ps.map Poster.name).map
        (fun n => "[dry-run] would post to " ++ styledProvider n colorOK ++ ": " ++ goQuote req.message) := by
    intro ps
    rw [List.map_map]
    rfl
  simp only [dispatch, if_pos rfl]
  rw [hline posters, hline posters2, hnames]
  simp

/-- Closed instance of `dispatch_dry_run`: two poster lists with the
same names but different `post` behavior produce identical dry-run
results. -/
theorem dispatch_dry_run_witness :
    dispatch [okPoster "twitter"] (msgRequest "hi") true true =
      dispatch [failPoster "twitter" .ctxCanceled] (msgRequest "hi") true true :=
  (dispatch_dry_run [okPoster "twitter"] (msgRequest "hi") true).2.2.2
    [failPoster "twitter" .ctxCanceled] rfl

/-- C4: after finalize returns, a reported state of "succeeded" or an
absent/empty state completes the session with no wait; "pending" or
"in_progress" performs exactly one completed wait of the reported
`checkAfterSecs` duration and then proceeds as success with no further
upload call; any other state fails with an error carrying the state
string. -/
theorem twitter_finalize_state_handling (path alt detected : String) (env : TwitterEnv)
    (info : ProcessingInfo) (mt : String × String)
    (hread : env.read = .ok detected)
    (hmt : resolveMediaType path detected = .ok mt)
    (hinit : env.initRes = .ok ())
    (happ : env.appendRes = .ok ())
    (hfin : env.finalizeRes = .ok info)
    (hmeta : env.metadataRes = .ok ()) :
    ((info.state = "" ∨ info.state = processingStateSucceeded) →
      twitterUploadMedia path alt env =
        (⟨[.initUpload, .appendUpload, .finalizeUpload] ++
            (if goTrim alt ≠ "" then [.mediaMetadata] else []), []⟩, .ok ())) ∧
    ((info.state = processingStateInProgress ∨ info.state = processingStatePending) →
      env.cancelDuringWait = false →
      twitterUploadMedia path alt env =
        (⟨[.initUpload, .appendUpload, .finalizeUpload] ++
            (if goTrim alt ≠ "" then [.mediaMetadata] else []), [info.checkAfterSecs]⟩, .ok ())) ∧
    (info.state ≠ "" → info.state ≠ processingStateSucceeded →
      info.state ≠ processingStateInProgress → info.state ≠ processingStatePending →
      twitterUploadMedia path alt env =
        (⟨[.initUpload, .appendUpload, .finalizeUpload], []⟩,
         .error (.errorf ("media processing failed: state=" ++ info.state)))) := by
  refine ⟨?_, ?_, ?_⟩
  · intro hstate
    simp only [twitterUploadMedia, hread, hmt, hinit, happ, hfin, if_pos hstate,
      twitterAfterProcessing]
    by_cases halt : goTrim alt ≠ "" <;> simp [halt, hmeta]
  · intro hstate hcancel
    have hne1 : ¬ (info.state = "" ∨ info.state = processingStateSucceeded) := by
      rcases hstate with h | h <;> rw [h] <;> decide
    simp only [twitterUploadMedia, hread, hmt, hinit, happ, hfin, if_neg hne1,
      if_pos hstate, hcancel, twitterAfterProcessing]
    by_cases halt : goTrim alt ≠ "" <;> simp [halt, hmeta]
  · intro h1 h2 h3 h4
    have hne1 : ¬ (info.state = "" ∨ info.state = processingStateSucceeded) := by
      rintro (h | h) <;> [exact h1 h; exact h2 h]
    have hne2 : ¬ (info.state = processingStateInProgress ∨ info.state = processingStatePending) := by
      rintro (h | h) <;> [exact h3 h; exact h4 h]
    simp only [twitterUploadMedia, hread, hmt, hinit, happ, hfin, if_neg hne1, if_neg hne2]

/-- Closed instance of `twitter_finalize_state_handling`: a finalize
response in state "pending" with a 7 second suggested wait leads to
exactly one completed 7 second wait and success, with no call after
finalize. -/
theorem twitter_finalize_state_handling_witness :
    twitterUploadMedia "a.png" ""
        ⟨.ok "image/png", .ok (), .ok (), .ok ⟨"pending", 7⟩, false, .ok (), .ok ()⟩ =
      (⟨[.initUpload, .appendUpload, .finalizeUpload], [7]⟩, .ok ()) := by
  have h := (twitter_finalize_state_handling "a.png" "" "image/png"
    ⟨.ok "image/png", .ok (), .ok (), .ok ⟨"pending", 7⟩, false, .ok (), .ok ()⟩
    ⟨"pending", 7⟩ (mediaTypePNG, mediaCategoryTweetImage)
    rfl rfl rfl rfl rfl rfl).2.1 (Or.inr rfl) rfl
  exact h

/-- C5: if the caller's context fires during the processing wait after
a "pending" or "in_progress" finalize state, the upload aborts with
the context's cancellation error, no wait is completed, and the
provider's create-post call is never issued. -/
theorem twitter_wait_cancellation (req : Request) (detected : String) (env : TwitterEnv)
    (info : ProcessingInfo) (mt : String × String)
    (himg : goTrim req.imagePath ≠ "")
    (hread : env.read = .ok detected)
    (hmt : resolveMediaType req.imagePath detected = .ok mt)
    (hinit : env.initRes = .ok ())
    (happ : env.appendRes = .ok ())
    (hfin : env.finalizeRes = .ok info)
    (hstate : info.state = processingStateInProgress ∨ info.state = processingStatePending)
    (hcancel : env.cancelDuringWait = true) :
    twitterPost req env =
      (⟨[.initUpload, .appendUpload, .finalizeUpload], []⟩, .error .ctxCanceled) ∧
    (∀ t, NetCall.createTweet t ∉ (twitterPost req env).1.calls) := by
  have hne1 : ¬ (info.state = "" ∨ info.state = processingStateSucceeded) := by
    rcases hstate with h | h <;> rw [h] <;> decide
  have hup : twitterUploadMedia req.imagePath req.imageAlt env =
      (⟨[.initUpload, .appendUpload, .finalizeUpload], []⟩, .error .ctxCanceled) := by
    simp only [twitterUploadMedia, hread, hmt, hinit, happ, hfin, if_neg hne1,
      if_pos hstate, hcancel]
    simp
  have hpost : twitterPost req env =
      (⟨[.initUpload, .appendUpload, .finalizeUpload], []⟩, .error .ctxCanceled) := by
    simp only [twitterPost, if_pos himg, hup]
  refine ⟨hpost, ?_⟩
  intro t
  rw [hpost]
  simp

/-- Closed instance of `twitter_wait_cancellation`: cancellation
during the wait for an "in_progress" upload aborts the post with the
context error and no create call. -/
theorem twitter_wait_cancellation_witness :
    twitterPost ⟨"hello", "a.png", "", ""⟩
        ⟨.ok "image/png", .ok (), .ok (), .ok ⟨"in_progress", 5⟩, true, .ok (), .ok ()⟩ =
      (⟨[.initUpload, .appendUpload, .finalizeUpload], []⟩, .error .ctxCanceled) :=
  (twitter_wait_cancellation ⟨"hello", "a.png", "", ""⟩ "image/png"
    ⟨.ok "image/png", .ok (), .ok (), .ok ⟨"in_progress", 5⟩, true, .ok (), .ok ()⟩
    ⟨"in_progress", 5⟩ (mediaTypePNG, mediaCategoryTweetImage)
    (by decide) rfl rfl rfl rfl rfl (Or.inl rfl) rfl).1

/-- C6: a readable image whose lowercased extension is outside the
fixed table and whose sniffed content type names none of the four
supported formats makes `post` fail with a `ValidationError` naming
the path, before any upload call is issued; when the extension is in
the table it alone determines the media type and category, for every
sniffed content type. -/
theorem twitter_media_classification (req : Request) (env : TwitterEnv)
    (detected : String) (path d : String) :
    (goTrim req.imagePath ≠ "" → env.read = .ok detected →
      goToLower (filepathExt req.imagePath) ∉ [".jpg", ".jpeg", ".png", ".gif", ".webp"] →
      strContains detected "jpeg" = false → strContains detected "png" = false →
      strContains detected "gif" = false → strContains detected "webp" = false →
      twitterPost req env =
        (⟨[], []⟩,
         .error (.validation "twitter" ("unsupported image type for " ++ goQuote req.imagePath)))) ∧
    (goToLower (filepathExt path) = ".jpg" ∨ goToLower (filepathExt path) = ".jpeg" →
      resolveMediaType path d = .ok (mediaTypeJPEG, mediaCategoryTweetImage)) ∧
    (goToLower (filepathExt path) = ".png" →
      resolveMediaType path d = .ok (mediaTypePNG, mediaCategoryTweetImage)) ∧
    (goToLower (filepathExt path) = ".gif" →
      resolveMediaType path d = .ok (mediaTypeGIF, mediaCategoryTweetGIF)) ∧
    (goToLower (filepathExt path) = ".webp" →
      resolveMediaType path d = .ok (mediaTypeWebP, mediaCategoryTweetImage)) := by
  refine ⟨?_, ?_, ?_, ?_, ?_⟩
  · intro himg hread hext h1 h2 h3 h4
    have hextj : ¬ (goToLower (filepathExt req.imagePath) = ".jpg" ∨
        goToLower (filepathExt req.imagePath) = ".jpeg") := by
      rintro (h | h) <;> simp [h] at hext
    have hextp : goToLower (filepathExt req.imagePath) ≠ ".png" := by
      intro h; simp [h] at hext
    have hextg : goToLower (filepathExt req.imagePath) ≠ ".gif" := by
      intro h; simp [h] at hext
    have hextw : goToLower (filepathExt req.imagePath) ≠ ".webp" := by
      intro h; simp [h] at hext
    have hmt : resolveMediaType req.imagePath detected =
        .error (.validation "twitter" ("unsupported image type for " ++ goQuote req.imagePath)) := by
      simp only [resolveMediaType, if_neg hextj, if_neg hextp, if_neg hextg, if_neg hextw,
        h1, h2, h3, h4]
      simp
    simp only [twitterPost, if_pos himg, twitterUploadMedia, hread, hmt]
  · intro hj
    simp only [resolveMediaType, if_pos hj]
  · intro hp
    have hj : ¬ (goToLower (filepathExt path) = ".jpg" ∨ goToLower (filepathExt path) = ".jpeg") := by
      rintro (h | h) <;> rw [h] at hp <;> exact absurd hp (by decide)
    simp only [resolveMediaType, if_neg hj, if_pos hp]
  · intro hg
    have hj : ¬ (goToLower (filepathExt path) = ".jpg" ∨ goToLower (filepathExt path) = ".jpeg") := by
      rintro (h | h) <;> rw [h] at hg <;> exact absurd hg (by decide)
    have hp : goToLower (filepathExt path) ≠ ".png" := by
      intro h; rw [h] at hg; exact absurd hg (by decide)
    simp only [resolveMediaType, if_neg hj, if_neg hp, if_pos hg]
  · intro hw
    have hj : ¬ (goToLower (filepathExt path) = ".jpg" ∨ goToLower (filepathExt path) = ".jpeg") := by
      rintro (h | h) <;> rw [h] at hw <;> exact absurd hw (by decide)
    have hp : goToLower (filepathExt path) ≠ ".png" := by
      intro h; rw [h] at hw; exact absurd hw (by decide)
    have hg : goToLower (filepathExt path) ≠ ".gif" := by
      intro h; rw [h] at hw; exact absurd hw (by decide)
    simp only [resolveMediaType, if_neg hj, if_neg hp, if_neg hg, if_pos hw]

/-- Closed instance of `twitter_media_classification`: `cat.txt` with
sniffed type `text/plain; charset=utf-8` fails validation with no
upload call, and an uppercase `.PNG` extension is classified by the
table alone. -/
theorem twitter_media_classification_witness :
    twitterPost ⟨"hello", "cat.txt", "", ""⟩
        ⟨.ok "text/plain; charset=utf-8", .ok (), .ok (), .ok ⟨"", 0⟩, false, .ok (), .ok ()⟩ =
      (⟨[], []⟩,
       .error (.validation "twitter" ("unsupported image type for " ++ goQuote "cat.txt"))) ∧
    resolveMediaType "shot.PNG" "application/octet-stream" =
      .ok (mediaTypePNG, mediaCategoryTweetImage) := by
  refine ⟨?_, ?_⟩
  · exact (twitter_media_classification ⟨"hello", "cat.txt", "", ""⟩
      ⟨.ok "text/plain; charset=utf-8", .ok (), .ok (), .ok ⟨"", 0⟩, false, .ok (), .ok ()⟩
      "text/plain; charset=utf-8" "" "").1
      (by decide) rfl (by decide) (by decide) (by decide) (by decide) (by decide)
  · exact (twitter_media_classification ⟨"hello", "cat.txt", "", ""⟩
      ⟨.ok "text/plain; charset=utf-8", .ok (), .ok (), .ok ⟨"", 0⟩, false, .ok (), .ok ()⟩
      "text/plain; charset=utf-8" "shot.PNG" "application/octet-stream").2.2.1 (by decide)

/-- C7: a missing image file makes `post` fail before any remote call
with a `ValidationError` carrying the provider name and the path and
marked as file-not-found, for both the twitter and mastodon
pipelines; any other local I/O failure surfaces as a generic
(non-validation) wrapped error instead. -/
theorem missing_file_validation (req : Request) (tenv : TwitterEnv) (menv : MastodonEnv)
    (m : String) :
    (goTrim req.imagePath ≠ "" → tenv.read = .notExist →
      twitterPost req tenv =
        (⟨[], []⟩,
         .error (.validation "twitter" ("image " ++ goQuote req.imagePath ++ " not found")))) ∧
    (goTrim req.imagePath ≠ "" → tenv.read = .ioError m →
      twitterPost req tenv = (⟨[], []⟩, .error (.wrap "read image" (.errorf m))) ∧
      XError.isValidation (.wrap "read image" (.errorf m)) = false) ∧
    (req.imagePath ≠ "" → menv.openRes = .notExist →
      mastodonPost req menv =
        ([], .error (.validation "mastodon" ("image " ++ goQuote req.imagePath ++ " not found")))) ∧
    (req.imagePath ≠ "" → menv.openRes = .ioError m →
      mastodonPost req menv = ([], .error (.wrap "open image" (.errorf m))) ∧
      XError.isValidation (.wrap "open image" (.errorf m)) = false) := by
  refine ⟨?_, ?_, ?_, ?_⟩
  · intro himg hread
    simp only [twitterPost, if_pos himg, twitterUploadMedia, hread]
  · intro himg hread
    refine ⟨?_, rfl⟩
    simp only [twitterPost, if_pos himg, twitterUploadMedia, hread]
  · intro himg hopen
    simp only [mastodonPost, if_pos himg, mastodonUpload, hopen]
  · intro himg hopen
    refine ⟨?_, rfl⟩
    simp only [mastodonPost, if_pos himg, mastodonUpload, hopen]

/-- Closed instance of `missing_file_validation`: a missing
`gone.png` yields the provider-qualified not-found validation error on
the twitter path with no remote call, and a permission failure yields
a generic wrapped error. -/
theorem missing_file_validation_witness :
    twitterPost ⟨"hello", "gone.png", "", ""⟩
        ⟨.notExist, .ok (), .ok (), .ok ⟨"", 0⟩, false, .ok (), .ok ()⟩ =
      (⟨[], []⟩,
       .error (.validation "twitter" ("image " ++ goQuote "gone.png" ++ " not found"))) ∧
    mastodonPost ⟨"hello", "gone.png", "", ""⟩ ⟨.ioError "permission denied", .ok (), .ok ()⟩ =
      ([], .error (.wrap "open image" (.errorf "permission denied"))) := by
  refine ⟨?_, ?_⟩
  · exact (missing_file_validation ⟨"hello", "gone.png", "", ""⟩
      ⟨.notExist, .ok (), .ok (), .ok ⟨"", 0⟩, false, .ok (), .ok ()⟩
      ⟨.ioError "permission denied", .ok (), .ok ()⟩ "permission denied").1 (by decide) rfl
  · exact ((missing_file_validation ⟨"hello", "gone.png", "", ""⟩
      ⟨.notExist, .ok (), .ok (), .ok ⟨"", 0⟩, false, .ok (), .ok ()⟩
      ⟨.ioError "permission denied", .ok (), .ok ()⟩ "permission denied").2.2.2
      (by decide) rfl).1

/-- C8 fails on the code: for a request with message `m` and link
`https://example.com`, the twitter and bluesky providers submit
exactly `m` as the post text, not the message followed by the link on
a blank-separated line (which only mastodon produces). -/
theorem post_link_composition_counterexample :
    (twitterPost linkRequest okTwitterEnv).1.calls = [.createTweet "m"] ∧
    (blueskyPost linkRequest okBlueskyEnv).1 = [.blueskyCreateRecord "m"] ∧
    (mastodonPost linkRequest okMastodonEnv).1 =
      [.mastodonPostStatus ("m" ++ "\n\n" ++ "https://example.com")] ∧
    ("m" : String) ≠ "m" ++ "\n\n" ++ "https://example.com" := by
  refine ⟨rfl, rfl, rfl, by decide⟩

/-- C8 amended: only the mastodon provider appends a non-empty link to
the message on its own blank-separated line; the twitter and bluesky
providers always submit exactly the message as the post text,
regardless of the link. -/
theorem post_link_composition_amended (req : Request) (tenv : TwitterEnv)
    (menv : MastodonEnv) (benv : BlueskyEnv) (himg : req.imagePath = "") :
    (twitterPost req tenv).1.calls = [.createTweet req.message] ∧
    (mastodonPost req menv).1 =
      [.mastodonPostStatus
        (if req.link ≠ "" then req.message ++ "\n\n" ++ req.link else req.message)] ∧
    (blueskyPost req benv).1 = [.blueskyCreateRecord req.message] := by
  have htrim : ¬ goTrim req.imagePath ≠ "" := by
    rw [himg]; decide
  have hne : ¬ req.imagePath ≠ "" := by
    rw [himg]; decide
  refine ⟨?_, ?_, ?_⟩
  · simp only [twitterPost, if_neg htrim]
    cases h : tenv.createRes <;> simp [h]
  · simp only [mastodonPost, if_neg hne, mastodonStatusText]
    cases h : menv.postStatusRes <;> simp [h]
  · simp only [blueskyPost, if_neg hne]
    cases h : benv.createRecordRes <;> simp [h]

/-- Closed instance of `post_link_composition_amended` at a request
with a non-empty link and no image. -/
theorem post_link_composition_amended_witness :
    (twitterPost linkRequest okTwitterEnv).1.calls = [.createTweet "m"] ∧
    (mastodonPost linkRequest okMastodonEnv).1 =
      [.mastodonPostStatus ("m" ++ "\n\n" ++ "https://example.com")] := by
  have h := post_link_composition_amended linkRequest okTwitterEnv okMastodonEnv okBlueskyEnv rfl
  exact ⟨h.1, h.2.1.trans (by decide)⟩

/-- Characterization of the live dispatch loop: every poster is
invoked in order, the collected errors are the provider-wrapped
failures in order, and the output lines are the confirmations of the
successes in order. -/
theorem dispatchLoop_spec (posters : List Poster) (req : Request) (colorOK : Bool) :
    (dispatchLoop posters req colorOK).2.1 = posters.map Poster.name ∧
    (dispatchLoop posters req colorOK).2.2 = posters.filterMap (fun p =>
      match p.post req with
      | .error e => some (XError.wrap p.name e)
      | .ok _ => none) ∧
    (dispatchLoop posters req colorOK).1 = posters.filterMap (fun p =>
      match p.post req with
      | .ok _ => some ("Posted to " ++ styledProvider p.name colorOK)
      | .error _ => none) := by
  induction posters with
  | nil => exact ⟨rfl, rfl, rfl⟩
  | cons p rest ih =>
    refine ⟨?_, ?_, ?_⟩ <;>
      · simp only [dispatchLoop, List.map_cons, List.filterMap_cons]
        cases h : p.post req <;> simp [h, ih.1, ih.2.1, ih.2.2]

/-- C2: in live mode every poster in the list is invoked in order even
after earlier failures; the returned error is non-empty exactly when
some `post` failed, in which case it aggregates one provider-wrapped
error per failure, preserving each failing provider's name and
message; and each successful provider still gets its own confirmation
line. -/
theorem dispatch_live_partial_failure_isolation (posters : List Poster) (req : Request)
    (colorOK : Bool) (hne : posters ≠ []) :
    (dispatch posters req colorOK false).calls = posters.map Poster.name ∧
    (dispatch posters req colorOK false).err =
      (if (posters.filterMap (fun p =>
            match p.post req with
            | .error e => some (XError.wrap p.name e)
            | .ok _ => none)).isEmpty
       then none
       else some (.joined (posters.filterMap (fun p =>
            match p.post req with
            | .error e => some (XError.wrap p.name e)
            | .ok _ => none)))) ∧
    ((dispatch posters req colorOK false).err ≠ none ↔
      ∃ p ∈ posters, ∃ e, p.post req = .error e) ∧
    (∀ p ∈ posters, p.post req = .ok () →
      ("Posted to " ++ styledProvider p.name colorOK) ∈ (dispatch posters req colorOK false).output) ∧
    (∀ p ∈ posters, ∀ e, p.post req = .error e →
      XError.message (XError.wrap p.name e) = p.name ++ ": " ++ XError.message e) := by
  obtain ⟨hcalls, herrs, hout⟩ := dispatchLoop_spec posters req colorOK
  have hdef : dispatch posters req colorOK false =
      (let acc := dispatchLoop posters req colorOK
       if acc.2.2.isEmpty then ⟨acc.1, acc.2.1, none⟩
       else ⟨acc.1 ++ acc.2.2.map (fun e => "error: " ++ e.message), acc.2.1,
             some (.joined acc.2.2)⟩) := by
    simp [dispatch]
  refine ⟨?_, ?_, ?_, ?_, ?_⟩
  · rw [hdef]
    by_cases h : (dispatchLoop posters req colorOK).2.2.isEmpty <;> simp [h, hcalls]
  · rw [hdef, ← herrs]
    by_cases h : (dispatchLoop posters req colorOK).2.2.isEmpty <;> simp [h]
  · have herr2 : (dispatch posters req colorOK false).err =
        (if (posters.filterMap (fun p =>
              match p.post req with
              | .error e => some (XError.wrap p.name e)
              | .ok _ => none)).isEmpty
         then none
         else some (.joined (posters.filterMap (fun p =>
              match p.post req with
              | .error e => some (XError.wrap p.name e)
              | .ok _ => none)))) := by
      rw [hdef, ← herrs]
      by_cases h : (dispatchLoop posters req colorOK).2.2.isEmpty <;> simp [h]
    rw [herr2]
    cases hE : (posters.filterMap (fun p =>
        match p.post req with
        | .error e => some (XError.wrap p.name e)
        | .ok _ => none)).isEmpty
    · simp only [Bool.false_eq_true, if_false, ne_eq]
      constructor
      · intro _
        have hnn : posters.filterMap (fun p =>
            match p.post req with
            | .error e => some (XError.wrap p.name e)
            | .ok _ => none) ≠ [] := by
          intro h0
          rw [h0] at hE
          simp at hE
        obtain ⟨x, hx⟩ := List.exists_mem_of_ne_nil _ hnn
        rw [List.mem_filterMap] at hx
        obtain ⟨p, hp, hpe⟩ := hx
        cases hpost : p.post req with
        | error e => exact ⟨p, hp, e, hpost⟩
        | ok u =>
          rw [hpost] at hpe
          simp at hpe
      · intro _
        simp
    · simp only [if_pos rfl, ne_eq]
      have hnil : posters.filterMap (fun p =>
          match p.post req with
          | .error e => some (XError.wrap p.name e)
          | .ok _ => none) = [] := by
        simpa using hE
      rw [List.filterMap_eq_nil_iff] at hnil
      constructor
      · intro hfalse
        exact absurd rfl hfalse
      · rintro ⟨p, hp, e, he⟩
        have := hnil p hp
        rw [he] at this
        simp at this
  · intro p hp hpost
    rw [hdef]
    have hmem : ("Posted to " ++ styledProvider p.name colorOK) ∈
        (dispatchLoop posters req colorOK).1 := by
      rw [hout, List.mem_filterMap]
      exact ⟨p, hp, by rw [hpost]⟩
    by_cases h : (dispatchLoop posters req colorOK).2.2.isEmpty <;>
      simp only [h] <;> simp [hmem]
  · intro p _ e _
    rfl

/-- Closed instance of `dispatch_live_partial_failure_isolation`: with
a failing bluesky poster followed by succeeding mastodon and twitter
posters, all three are invoked, the aggregate holds exactly the
bluesky failure, and both successes are confirmed. -/
theorem dispatch_live_partial_failure_isolation_witness :
    (dispatch [failPoster "bluesky" (.errorf "boom"), okPoster "mastodon", okPoster "twitter"]
        (msgRequest "hi") false false).calls = ["bluesky", "mastodon", "twitter"] ∧
    (dispatch [failPoster "bluesky" (.errorf "boom"), okPoster "mastodon", okPoster "twitter"]
        (msgRequest "hi") false false).err =
      some (.joined [.wrap "bluesky" (.errorf "boom")]) ∧
    ("Posted to " ++ styledProvider "mastodon" false) ∈
      (dispatch [failPoster "bluesky" (.errorf "boom"), okPoster "mastodon", okPoster "twitter"]
        (msgRequest "hi") false false).output := by
  have h := dispatch_live_partial_failure_isolation
    [failPoster "bluesky" (.errorf "boom"), okPoster "mastodon", okPoster "twitter"]
    (msgRequest "hi") false (by simp)
  refine ⟨h.1.trans (by simp [failPoster, okPoster]), h.2.1.trans (by rfl), ?_⟩
  exact h.2.2.2.1 (okPoster "mastodon") (by simp) rfl

/-- C1 fails on the code: with twitter credentials absent and mastodon
and bluesky complete, the two usable posters are constructed but never
dispatched — `runPost` invokes no poster and emits no confirmation,
returning only the combined construction error. -/
theorem buildPosters_partial_failure_counterexample :
    (buildLoop c1Targets c1Construct).posters.length = 2 ∧
    (buildLoop c1Targets c1Construct).errs =
      [.wrap "twitter" (.missingEnv "twitter" twitterEnvVarNames)] ∧
    runPost c1Targets c1Construct (msgRequest "hello") false false =
      ⟨[], [], some (.joined [.wrap "twitter" (.missingEnv "twitter" twitterEnvVarNames)])⟩ :=
  ⟨rfl, rfl, rfl⟩

/-- Helper: characterization of the `buildPosters` loop for targets
that all have registered constructors. -/
theorem buildLoop_spec (targets : List String) (construct : String → Except XError Poster)
    (hsup : ∀ t ∈ targets, t ∈ constructorTargets) :
    (buildLoop targets construct).attempted = targets ∧
    (buildLoop targets construct).errs = targets.filterMap (fun t =>
      match construct t with
      | .error e => some (XError.wrap t e)
      | .ok _ => none) ∧
    (buildLoop targets construct).posters = targets.filterMap (fun t =>
      match construct t with
      | .ok p => some p
      | .error _ => none) := by
  induction targets with
  | nil => exact ⟨rfl, rfl, rfl⟩
  | cons t rest ih =>
    have ht : t ∈ constructorTargets := hsup t (List.mem_cons_self t rest)
    have ih2 := ih fun x hx => hsup x (List.mem_cons_of_mem t hx)
    refine ⟨?_, ?_, ?_⟩ <;>
      · simp only [buildLoop, if_pos ht, List.filterMap_cons]
        cases h : construct t <;> simp [h, ih2.1, ih2.2.1, ih2.2.2]

/-- C1 amended: when any requested target's construction fails, the
sibling constructors are still invoked (and their posters collected),
the combined error contains exactly one provider-wrapped entry per
failed target in target order, but dispatch is skipped entirely — the
run returns the combined construction error with no poster invoked
and no confirmation, even when the usable-poster set is non-empty.
Dispatch proceeds only when every requested target constructs. -/
theorem buildPosters_failure_skips_dispatch (targets : List String)
    (construct : String → Except XError Poster) (req : Request) (colorOK dryRun : Bool)
    (hsup : ∀ t ∈ targets, t ∈ constructorTargets) :
    (buildLoop targets construct).attempted = targets ∧
    (buildLoop targets construct).errs = targets.filterMap (fun t =>
      match construct t with
      | .error e => some (XError.wrap t e)
      | .ok _ => none) ∧
    (buildLoop targets construct).posters = targets.filterMap (fun t =>
      match construct t with
      | .ok p => some p
      | .error _ => none) ∧
    ((∃ t ∈ targets, ∃ e, construct t = .error e) →
      runPost targets construct req colorOK dryRun =
        ⟨[], [], some (.joined ((buildLoop targets construct).errs))⟩) := by
  obtain ⟨ha, he, hp⟩ := buildLoop_spec targets construct hsup
  refine ⟨ha, he, hp, ?_⟩
  rintro ⟨t, ht, e, hte⟩
  have hmem : XError.wrap t e ∈ (buildLoop targets construct).errs := by
    rw [he, List.mem_filterMap]
    exact ⟨t, ht, by rw [hte]⟩
  have hnn : (buildLoop targets construct).errs ≠ [] := by
    intro h0
    rw [h0] at hmem
    exact absurd hmem (List.not_mem_nil _)
  have hbp : buildPosters targets construct = .error (.joined (buildLoop targets construct).errs) := by
    unfold buildPosters
    rw [if_pos (by simpa [List.isEmpty_iff] using hnn)]
  simp [runPost, hbp]

/-- Closed instance of `buildPosters_failure_skips_dispatch`: with
targets mastodon and twitter over `c1Env`, both constructors run, and
the twitter failure alone suppresses dispatch. -/
theorem buildPosters_failure_skips_dispatch_witness :
    (buildLoop ["mastodon", "twitter"] c1Construct).attempted = ["mastodon", "twitter"] ∧
    runPost ["mastodon", "twitter"] c1Construct (msgRequest "w") false false =
      ⟨[], [], some (.joined [.wrap "twitter" (.missingEnv "twitter" twitterEnvVarNames)])⟩ := by
  have h := buildPosters_failure_skips_dispatch ["mastodon", "twitter"] c1Construct
    (msgRequest "w") false false (by decide)
  refine ⟨h.1, ?_⟩
  have h4 := h.2.2.2 ⟨"twitter", by simp, .missingEnv "twitter" twitterEnvVarNames, rfl⟩
  exact h4.trans (by rfl)

/-- Supported provider names are neither empty nor the meta-target. -/
theorem supported_entry_facts : ∀ x ∈ supportedTargetNames, x ≠ "" ∧ x ≠ "all" := by decide

/-- Characterization of `normalizeLoop` when every entry normalizes to
a supported provider name. -/
theorem normalizeLoop_no_all :
    ∀ (values seen result : List String),
      (∀ e ∈ values, normalizeEntry e ∈ supportedTargetNames) →
      normalizeLoop values seen result =
        (if (result ++ dedupNew values seen).isEmpty
         then .error (.errorf "no targets selected")
         else .ok (sortedTargets (result ++ dedupNew values seen)))
  | [], seen, result, _ => by simp [normalizeLoop, dedupNew]
  | e :: rest, seen, result, hv => by
    have hr : normalizeEntry e ∈ supportedTargetNames := hv e (List.mem_cons_self _ _)
    have hr1 : normalizeEntry e ≠ "" := (supported_entry_facts _ hr).1
    have hr2 : normalizeEntry e ≠ "all" := (supported_entry_facts _ hr).2
    have hv2 : ∀ x ∈ rest, normalizeEntry x ∈ supportedTargetNames :=
      fun x hx => hv x (List.mem_cons_of_mem _ hx)
    simp only [normalizeLoop, dedupNew, if_neg hr1, if_neg hr2, if_pos hr]
    by_cases hseen : normalizeEntry e ∈ seen
    · simp only [if_pos hseen]
      exact normalizeLoop_no_all rest seen result hv2
    · simp only [if_neg hseen]
      rw [normalizeLoop_no_all rest (normalizeEntry e :: seen) (result ++ [normalizeEntry e]) hv2]
      simp [List.append_assoc]

/-- `dedupNew` produces a duplicate-free list whose members are
exactly the normalized entries not in `seen`. -/
theorem dedupNew_spec :
    ∀ (values seen : List String),
      (dedupNew values seen).Nodup ∧
      (∀ x, x ∈ dedupNew values seen ↔ x ∈ values.map normalizeEntry ∧ x ∉ seen)
  | [], seen => ⟨List.nodup_nil, by simp [dedupNew]⟩
  | e :: rest, seen => by
    by_cases hseen : normalizeEntry e ∈ seen
    · obtain ⟨hn, hm⟩ := dedupNew_spec rest seen
      have hd : dedupNew (e :: rest) seen = dedupNew rest seen := by
        simp [dedupNew, hseen]
      refine ⟨hd ▸ hn, ?_⟩
      intro x
      rw [hd, hm x]
      simp only [List.map_cons, List.mem_cons]
      constructor
      · rintro ⟨hx, hxs⟩
        exact ⟨Or.inr hx, hxs⟩
      · rintro ⟨heq | hx, hxs⟩
        · exact absurd (heq ▸ hseen) hxs
        · exact ⟨hx, hxs⟩
    · obtain ⟨hn, hm⟩ := dedupNew_spec rest (normalizeEntry e :: seen)
      have hd : dedupNew (e :: rest) seen =
          normalizeEntry e :: dedupNew rest (normalizeEntry e :: seen) := by
        simp [dedupNew, hseen]
      constructor
      · rw [hd, List.nodup_cons]
        refine ⟨?_, hn⟩
        intro hmem
        exact absurd ((hm _).mp hmem).2 (by simp)
      · intro x
        rw [hd]
        simp only [List.mem_cons, hm x, List.map_cons]
        constructor
        · rintro (heq | ⟨hx, hxrs⟩)
          · exact ⟨Or.inl heq, heq ▸ hseen⟩
          · push_neg at hxrs
            exact ⟨Or.inr hx, hxrs.2⟩
        · rintro ⟨heq | hx, hxs⟩
          · exact Or.inl heq
          · by_cases hxe : x = normalizeEntry e
            · exact Or.inl hxe
            · refine Or.inr ⟨hx, ?_⟩
              push_neg
              exact ⟨hxe, hxs⟩

/-- `dedupNew` of a non-empty list against an empty seen set is
non-empty. -/
theorem dedupNew_ne_nil (e : String) (rest : List String) :
    dedupNew (e :: rest) [] ≠ [] := by
  simp [dedupNew]

/-- An entry normalizing to the meta-target short-circuits
`normalizeLoop` to the full sorted provider set, provided no earlier
entry is unsupported. -/
theorem normalizeLoop_all :
    ∀ (pre : List String) (a : String) (post seen result : List String),
      (∀ e ∈ pre, normalizeEntry e ∈ "" :: "all" :: supportedTargetNames) →
      normalizeEntry a = "all" →
      normalizeLoop (pre ++ a :: post) seen result = .ok (sortedTargets defaultTargets)
  | [], a, post, seen, result, _, ha => by
    simp only [List.nil_append, normalizeLoop, ha]
    simp
  | e :: pre, a, post, seen, result, hv, ha => by
    have hr : normalizeEntry e ∈ "" :: "all" :: supportedTargetNames :=
      hv e (List.mem_cons_self _ _)
    have hv2 : ∀ x ∈ pre, normalizeEntry x ∈ "" :: "all" :: supportedTargetNames :=
      fun x hx => hv x (List.mem_cons_of_mem _ hx)
    simp only [List.cons_append, normalizeLoop]
    rcases List.mem_cons.mp hr with h0 | hr2
    · simp only [if_pos h0]
      exact normalizeLoop_all pre a post seen result hv2 ha
    · rcases List.mem_cons.mp hr2 with hall | hsupp
      · have h0 : normalizeEntry e ≠ "" := by rw [hall]; decide
        rw [if_neg h0, if_pos hall]
      · have h0 : normalizeEntry e ≠ "" := (supported_entry_facts _ hsupp).1
        have h1 : normalizeEntry e ≠ "all" := (supported_entry_facts _ hsupp).2
        simp only [if_neg h0, if_neg h1, if_pos hsupp]
        by_cases hseen : normalizeEntry e ∈ seen
        · simp only [if_pos hseen]
          exact normalizeLoop_all pre a post seen result hv2 ha
        · simp only [if_neg hseen]
          exact normalizeLoop_all pre a post _ _ hv2 ha

/-- An entry normalizing to an unsupported name makes `normalizeLoop`
fail, provided no earlier entry normalizes to the meta-target or to an
unsupported name. -/
theorem normalizeLoop_unsupported :
    ∀ (pre : List String) (u : String) (post seen result : List String),
      (∀ e ∈ pre, normalizeEntry e ∈ "" :: supportedTargetNames) →
      normalizeEntry u ≠ "" → normalizeEntry u ≠ "all" →
      normalizeEntry u ∉ supportedTargetNames →
      normalizeLoop (pre ++ u :: post) seen result =
        .error (.errorf ("unsupported target " ++ goQuote (normalizeEntry u)))
  | [], u, post, seen, result, _, h1, h2, h3 => by
    simp only [List.nil_append, normalizeLoop, if_neg h1, if_neg h2, if_neg h3]
    rfl
  | e :: pre, u, post, seen, result, hv, h1, h2, h3 => by
    have hr : normalizeEntry e ∈ "" :: supportedTargetNames := hv e (List.mem_cons_self _ _)
    have hv2 : ∀ x ∈ pre, normalizeEntry x ∈ "" :: supportedTargetNames :=
      fun x hx => hv x (List.mem_cons_of_mem _ hx)
    simp only [List.cons_append, normalizeLoop]
    rcases List.mem_cons.mp hr with h0 | hsupp
    · simp only [if_pos h0]
      exact normalizeLoop_unsupported pre u post seen result hv2 h1 h2 h3
    · have he0 : normalizeEntry e ≠ "" := (supported_entry_facts _ hsupp).1
      have he1 : normalizeEntry e ≠ "all" := (supported_entry_facts _ hsupp).2
      simp only [if_neg he0, if_neg he1, if_pos hsupp]
      by_cases hseen : normalizeEntry e ∈ seen
      · simp only [if_pos hseen]
        exact normalizeLoop_unsupported pre u post seen result hv2 h1 h2 h3
      · simp only [if_neg hseen]
        exact normalizeLoop_unsupported pre u post _ _ hv2 h1 h2 h3

/-- C10: an entry normalizing to `all` that appears before any
unsupported entry makes normalization return the full sorted
three-provider set with no error, regardless of later entries;
whereas an unsupported entry appearing before any `all` produces the
unsupported-target error and no list. -/
theorem normalizeTargets_all_short_circuit (pre post : List String) (a u : String) :
    ((∀ e ∈ pre, normalizeEntry e ∈ "" :: "all" :: supportedTargetNames) →
      normalizeEntry a = "all" →
      normalizeTargets (pre ++ a :: post) = .ok ["bluesky", "mastodon", "twitter"]) ∧
    ((∀ e ∈ pre, normalizeEntry e ∈ "" :: supportedTargetNames) →
      normalizeEntry u ≠ "" → normalizeEntry u ≠ "all" →
      normalizeEntry u ∉ supportedTargetNames →
      normalizeTargets (pre ++ u :: post) =
        .error (.errorf ("unsupported target " ++ goQuote (normalizeEntry u)))) := by
  constructor
  · intro hv ha
    have hne : ((pre ++ a :: post).isEmpty = true) = False := by simp
    unfold normalizeTargets
    rw [if_neg (by simp)]
    rw [normalizeLoop_all pre a post [] [] hv ha]
    rw [show sortedTargets defaultTargets = ["bluesky", "mastodon", "twitter"] from by decide]
  · intro hv h1 h2 h3
    unfold normalizeTargets
    rw [if_neg (by simp)]
    exact normalizeLoop_unsupported pre u post [] [] hv h1 h2 h3

/-- Closed instance of `normalizeTargets_all_short_circuit`: `ALL`
before the unsupported `bogus` yields the full set, while `bogus`
before `all` yields the unsupported-target error. -/
theorem normalizeTargets_all_short_circuit_witness :
    normalizeTargets ["Twitter ", "ALL", "bogus"] = .ok ["bluesky", "mastodon", "twitter"] ∧
    normalizeTargets ["bogus", "all"] =
      .error (.errorf ("unsupported target " ++ goQuote "bogus")) := by
  constructor
  · exact (normalizeTargets_all_short_circuit ["Twitter "] ["bogus"] "ALL" "x").1
      (by decide) (by decide)
  · exact (normalizeTargets_all_short_circuit [] ["all"] "x" "bogus").2
      (by decide) (by decide) (by decide) (by decide)

/-- Case analysis of `normalizeTargets` over valid inputs: empty input
and inputs containing the meta-target give the full sorted set, and
inputs of supported names give the sorted dedup of their normalized
entries. -/
theorem normalizeTargets_cases (values : List String)
    (hv : ∀ e ∈ values, normalizeEntry e ∈ "all" :: supportedTargetNames) :
    (values = [] → normalizeTargets values = .ok (sortedTargets defaultTargets)) ∧
    ((∃ e ∈ values, normalizeEntry e = "all") →
      normalizeTargets values = .ok (sortedTargets defaultTargets)) ∧
    (values ≠ [] → (∀ e ∈ values, normalizeEntry e ≠ "all") →
      normalizeTargets values = .ok (sortedTargets (dedupNew values []))) := by
  refine ⟨?_, ?_, ?_⟩
  · intro h
    subst h
    rfl
  · rintro ⟨e, he, hall⟩
    obtain ⟨s, t, rfl⟩ := List.append_of_mem he
    unfold normalizeTargets
    rw [if_neg (by simp)]
    refine normalizeLoop_all s e t [] [] ?_ hall
    intro x hx
    exact List.mem_cons_of_mem "" (hv x (List.mem_append.mpr (Or.inl hx)))
  · intro hne hnall
    cases values with
    | nil => exact absurd rfl hne
    | cons e rest =>
      have hv2 : ∀ x ∈ e :: rest, normalizeEntry x ∈ supportedTargetNames := by
        intro x hx
        rcases List.mem_cons.mp (hv x hx) with h | h
        · exact absurd h (hnall x hx)
        · exact h
      unfold normalizeTargets
      rw [if_neg (by simp)]
      rw [normalizeLoop_no_all (e :: rest) [] [] hv2, List.nil_append]
      rw [if_neg (by simp [dedupNew])]

/-- Every member of a `normalizeTargets` result is a supported
provider name. -/
theorem normalizeTargets_mem (values l : List String)
    (hv : ∀ e ∈ values, normalizeEntry e ∈ "all" :: supportedTargetNames)
    (hl : normalizeTargets values = .ok l) :
    ∀ t ∈ l, t ∈ supportedTargetNames := by
  have hdef : ∀ t ∈ sortedTargets defaultTargets, t ∈ supportedTargetNames := by decide
  by_cases hall : ∃ e ∈ values, normalizeEntry e = "all"
  · rw [(normalizeTargets_cases values hv).2.1 hall] at hl
    have := Except.ok.inj hl
    subst this
    exact hdef
  · by_cases hnil : values = []
    · subst hnil
      rw [(normalizeTargets_cases [] hv).1 rfl] at hl
      have := Except.ok.inj hl
      subst this
      exact hdef
    · push_neg at hall
      rw [(normalizeTargets_cases values hv).2.2 hnil hall] at hl
      have := Except.ok.inj hl
      subst this
      intro t ht
      have ht2 : t ∈ dedupNew values [] :=
        (sortedTargets_perm _).subset ht
      have ht3 := ((dedupNew_spec values []).2 t).mp ht2
      obtain ⟨e, he, hne⟩ := List.mem_map.mp ht3.1
      rcases List.mem_cons.mp (hv e he) with h | h
      · exact absurd (hne ▸ h) (hne ▸ hall e he)
      · exact hne ▸ h

/-- When every target has a registered constructor that succeeds with
a poster of the same name, the `buildPosters` loop collects no error
and the constructed posters carry the targets in order. -/
theorem buildLoop_all_ok :
    ∀ (targets : List String) (construct : String → Except XError Poster),
      (∀ t ∈ targets, t ∈ constructorTargets) →
      (∀ t ∈ targets, ∃ p, construct t = .ok p ∧ p.name = t) →
      (buildLoop targets construct).errs = [] ∧
      (buildLoop targets construct).posters.map Poster.name = targets
  | [], _, _, _ => ⟨rfl, rfl⟩
  | t :: rest, construct, hsup, hok => by
    obtain ⟨p, hp, hpn⟩ := hok t (List.mem_cons_self _ _)
    have ih := buildLoop_all_ok rest construct
      (fun x hx => hsup x (List.mem_cons_of_mem _ hx))
      (fun x hx => hok x (List.mem_cons_of_mem _ hx))
    simp only [buildLoop, if_pos (hsup t (List.mem_cons_self _ _)), hp]
    simp [ih.1, ih.2, hpn]

/-- In live mode `dispatch` invokes the posters exactly in list
order. -/
theorem dispatch_live_calls (posters : List Poster) (req : Request) (colorOK : Bool) :
    (dispatch posters req colorOK false).calls = posters.map Poster.name := by
  have h := (dispatchLoop_spec posters req colorOK).1
  simp only [dispatch, Bool.false_eq_true, if_false]
  by_cases hE : (dispatchLoop posters req colorOK).2.2.isEmpty <;> simp [hE, h]

/-- C3: valid target lists (entries drawn from the provider names or
`all`, up to case and whitespace, duplicates allowed) normalize to a
duplicate-free ascending list; inputs with the same set of normalized
entries (hence permutations or duplications of one another) resolve
identically; and live dispatch visits the constructed posters exactly
in the resolved order. -/
theorem normalizeTargets_sorted_dedup_order (values values2 : List String)
    (hv : ∀ e ∈ values, normalizeEntry e ∈ "all" :: supportedTargetNames)
    (hv2 : ∀ e ∈ values2, normalizeEntry e ∈ "all" :: supportedTargetNames) :
    (∃ l, normalizeTargets values = .ok l ∧
      l.Sorted (fun a b => strLe a b = true) ∧ l.Nodup) ∧
    ((∀ x, x ∈ values.map normalizeEntry ↔ x ∈ values2.map normalizeEntry) →
      normalizeTargets values = normalizeTargets values2) ∧
    (∀ (l : List String) (construct : String → Except XError Poster),
      normalizeTargets values = .ok l →
      (∀ t p, construct t = .ok p → p.name = t) →
      (∀ t ∈ l, ∃ p, construct t = .ok p) →
      ∀ (posters : List Poster) (req : Request) (colorOK : Bool),
        buildPosters l construct = .ok posters →
        (dispatch posters req colorOK false).calls = l) := by
  refine ⟨?_, ?_, ?_⟩
  · by_cases hall : ∃ e ∈ values, normalizeEntry e = "all"
    · exact ⟨_, (normalizeTargets_cases values hv).2.1 hall,
        sortedTargets_sorted _,
        (sortedTargets_perm _).nodup_iff.mpr (by decide)⟩
    · by_cases hnil : values = []
      · subst hnil
        exact ⟨_, (normalizeTargets_cases [] hv).1 rfl,
          sortedTargets_sorted _,
          (sortedTargets_perm _).nodup_iff.mpr (by decide)⟩
      · push_neg at hall
        exact ⟨_, (normalizeTargets_cases values hv).2.2 hnil hall,
          sortedTargets_sorted _,
          (sortedTargets_perm _).nodup_iff.mpr (dedupNew_spec values []).1⟩
  · intro hset
    by_cases hall : ∃ e ∈ values, normalizeEntry e = "all"
    · have hall2 : ∃ e ∈ values2, normalizeEntry e = "all" := by
        have h1 : "all" ∈ values.map normalizeEntry := by
          obtain ⟨e, he, h⟩ := hall
          exact List.mem_map.mpr ⟨e, he, h⟩
        obtain ⟨e, he, h⟩ := List.mem_map.mp ((hset "all").mp h1)
        exact ⟨e, he, h⟩
      rw [(normalizeTargets_cases values hv).2.1 hall,
        (normalizeTargets_cases values2 hv2).2.1 hall2]
    · have hall2 : ¬ ∃ e ∈ values2, normalizeEntry e = "all" := by
        rintro ⟨e, he, h⟩
        apply hall
        have h1 : "all" ∈ values2.map normalizeEntry := List.mem_map.mpr ⟨e, he, h⟩
        obtain ⟨x, hx, hxall⟩ := List.mem_map.mp ((hset "all").mpr h1)
        exact ⟨x, hx, hxall⟩
      by_cases hnil : values = []
      · have hnil2 : values2 = [] := by
          cases hval2 : values2 with
          | nil => rfl
          | cons e rest =>
            exfalso
            have hmem : normalizeEntry e ∈ values2.map normalizeEntry := by
              rw [hval2]
              exact List.mem_map.mpr ⟨e, List.mem_cons_self _ _, rfl⟩
            have := (hset _).mpr hmem
            rw [hnil] at this
            simp at this
        subst hnil
        subst hnil2
        rfl
      · have hnil2 : values2 ≠ [] := by
          intro h2
          cases hval : values with
          | nil => exact hnil hval
          | cons e rest =>
            have hmem : normalizeEntry e ∈ values.map normalizeEntry := by
              rw [hval]
              exact List.mem_map.mpr ⟨e, List.mem_cons_self _ _, rfl⟩
            have := (hset _).mp hmem
            rw [h2] at this
            simp at this
        push_neg at hall hall2
        rw [(normalizeTargets_cases values hv).2.2 hnil hall,
          (normalizeTargets_cases values2 hv2).2.2 hnil2 hall2]
        have hperm : (dedupNew values []).Perm (dedupNew values2 []) := by
          refine (List.perm_ext_iff_of_nodup (dedupNew_spec values []).1
            (dedupNew_spec values2 []).1).mpr ?_
          intro x
          rw [(dedupNew_spec values []).2 x, (dedupNew_spec values2 []).2 x]
          simp [hset x]
        exact congrArg Except.ok (sortedTargets_eq_of_perm _ _ hperm)
  · intro l construct hl hname hok posters req colorOK hbp
    have hmem := normalizeTargets_mem values l hv hl
    have hsup : ∀ t ∈ l, t ∈ constructorTargets := fun t ht => hmem t ht
    have hokname : ∀ t ∈ l, ∃ p, construct t = .ok p ∧ p.name = t := by
      intro t ht
      obtain ⟨p, hp⟩ := hok t ht
      exact ⟨p, hp, hname t p hp⟩
    obtain ⟨he0, hmap⟩ := buildLoop_all_ok l construct hsup hokname
    have hbp2 : posters = (buildLoop l construct).posters := by
      unfold buildPosters at hbp
      rw [he0] at hbp
      simp only [List.isEmpty_nil, Bool.not_true] at hbp
      by_cases hpe : (buildLoop l construct).posters.isEmpty
      · rw [if_neg (by simp), if_pos hpe] at hbp
        exact absurd hbp (by simp)
      · rw [if_neg (by simp), if_neg hpe] at hbp
        exact (Except.ok.inj hbp).symm
    rw [dispatch_live_calls, hbp2, hmap]

/-- Closed instance of `normalizeTargets_sorted_dedup_order`: a
duplicated mixed-case input and a whitespace-padded permutation of it
resolve to the same sorted duplicate-free list. -/
theorem normalizeTargets_sorted_dedup_order_witness :
    normalizeTargets ["twitter", "Bluesky", "twitter"] =
      normalizeTargets [" bluesky", "TWITTER"] ∧
    normalizeTargets ["twitter", "Bluesky", "twitter"] = .ok ["bluesky", "twitter"] := by
  have h := normalizeTargets_sorted_dedup_order
    ["twitter", "Bluesky", "twitter"] [" bluesky", "TWITTER"] (by decide) (by decide)
  refine ⟨h.2.1 ?_, by rfl⟩
  intro x
  show x ∈ (["twitter", "bluesky", "twitter"] : List String) ↔
    x ∈ (["bluesky", "twitter"] : List String)
  constructor <;> intro hx <;> simp only [List.mem_cons, List.not_mem_nil, or_false] at hx ⊢ <;>
    tauto

end Xpost
